import Mathlib

/-!
Verification of the NES-Emulator repository (Rust) against its
natural-language specification.

This file shallowly embeds the relevant parts of the source into Lean:
8-bit machine values are `Nat` with explicit `% 256`, 16-bit values are
`Nat` with explicit `% 65536` or bitwise masks exactly as in the source,
fallible operations return `Except`, and `panic!`-style outcomes are
modelled as a distinguished result constructor.  Every definition is
translated from the cited source location; definitions whose names start
with `spec` restate the specification's own wording for comparison.
-/

namespace NES

/-- `u8::wrapping_add` for byte-valued operands: `(a + b) % 256`. -/
def wrapAdd8 (a b : Nat) : Nat := (a + b) % 256

/-- `u8::wrapping_sub` for byte-valued operands (`a, b < 256`):
`(a - b) mod 256`, written over `Nat` as `(a + 256 - b) % 256`. -/
def wrapSub8 (a b : Nat) : Nat := (a + 256 - b) % 256

/-- Result of an arithmetic instruction arm: the value stored in the
accumulator plus the C/Z/N/V bits of `StatusRegister` it sets
(`src/cpu/registers.rs`, fields `carry_bit`, `zero_bit`, `negative_bit`,
`overflow_bit`). -/
structure ArithResult where
  acc : Nat
  carry : Bool
  zero : Bool
  negative : Bool
  overflow : Bool
deriving DecidableEq, Repr

/-- `Instruction::execute`, `InstructionType::ADC` arm for a plain ADC
(`src/cpu/instructions.rs:1748-1782`, excluding the `RRA` pre-step):
`result = acc.wrapping_add(op_value).wrapping_add(carry)`;
`did_carry = result < acc || (result == 0 && carry == 1) || (op_value == 0xff && carry == 1)`;
`did_overflow = (acc > 127 && op_value > 127 && result < 128) || (acc < 128 && op_value < 128 && result > 127)`;
Z from `set_status_if_zero`, N from `set_status_if_negative`
(`value & (1 << 7) > 0`). -/
def adcExec (acc op : Nat) (carryIn : Bool) : ArithResult :=
  let carry : Nat := if carryIn then 1 else 0
  let result : Nat := wrapAdd8 (wrapAdd8 acc op) carry
  { acc := result
    carry := decide (result < acc) || (decide (result = 0) && decide (carry = 1))
      || (decide (op = 0xff) && decide (carry = 1))
    zero := decide (result = 0)
    negative := decide (result &&& (1 <<< 7) > 0)
    overflow := (decide (acc > 127) && decide (op > 127) && decide (result < 128))
      || (decide (acc < 128) && decide (op < 128) && decide (result > 127)) }

/-- `Instruction::execute`, `InstructionType::SBC`/`USBC` arm (non-`ISC`
branch, `src/cpu/instructions.rs:1784-1816`):
`result = acc.wrapping_sub(op_value).wrapping_sub(1 - carry)`;
`did_carry = !((result >= acc) && (op_value != 0 || carry == 1))`;
`did_overflow = (acc ^ op_value) & (acc ^ result) & 0x80 != 0`;
Z and N as for ADC. -/
def sbcExec (acc op : Nat) (carryIn : Bool) : ArithResult :=
  let carry : Nat := if carryIn then 1 else 0
  let result : Nat := wrapSub8 (wrapSub8 acc op) (1 - carry)
  { acc := result
    carry := ! (decide (result ≥ acc) && (decide (op ≠ 0) || decide (carry = 1)))
    zero := decide (result = 0)
    negative := decide (result &&& (1 <<< 7) > 0)
    overflow := decide ((acc ^^^ op) &&& (acc ^^^ result) &&& 0x80 ≠ 0) }

/-- Flags produced by `Instruction::execute`,
`InstructionType::CMP | CPX | CPY` arm (`src/cpu/instructions.rs:1818-1834`)
for register value `reg` and operand `value`:
`C := reg >= value`, `Z := reg == value`,
`N := set_status_if_negative(reg.wrapping_sub(value))`.
The arm stores nothing: the accumulator is not written. -/
def cmpExec (reg value : Nat) : ArithResult :=
  { acc := reg
    carry := decide (reg ≥ value)
    zero := decide (reg = value)
    negative := decide (wrapSub8 reg value &&& (1 <<< 7) > 0)
    overflow := false }

/-- Spec-side definition (claim C1 wording): the two-input XOR
sign-overflow predicate — the signs (bit 7) of the two inputs agree with
each other and disagree with the sign of the result. -/
def SpecSignOverflow (x y r : Nat) : Prop :=
  x.testBit 7 = y.testBit 7 ∧ x.testBit 7 ≠ r.testBit 7

instance (x y r : Nat) : Decidable (SpecSignOverflow x y r) := by
  unfold SpecSignOverflow; infer_instance

/-- For byte values, bit 7 is the `128 ≤ x` threshold. -/
theorem testBit7_of_lt (x : Nat) (hx : x < 256) :
    x.testBit 7 = decide (128 ≤ x) := by
  rw [Nat.testBit_to_div_mod]
  simp only [decide_eq_decide]
  omega

theorem testBit7_true_iff (x : Nat) (hx : x < 256) :
    x.testBit 7 = true ↔ 128 ≤ x := by
  rw [testBit7_of_lt x hx]; simp

/-- A conjunction of masked bits is nonzero exactly when bit 7 survives. -/
theorem and_mask80_ne_zero (n : Nat) :
    n &&& 0x80 ≠ 0 ↔ n.testBit 7 = true := by
  have h : n &&& 0x80 = (n.testBit 7).toNat * 2 ^ 7 := Nat.and_two_pow n 7
  rw [h]; cases hb : n.testBit 7 <;> simp

/-- The ADC arm's overflow condition is the sign-overflow predicate on the
inputs `a`, `m` and the result `r`. -/
theorem adc_overflow_spec (a m r : Nat) (ha : a < 256) (hm : m < 256)
    (hr : r < 256) :
    ((a > 127 ∧ m > 127 ∧ r < 128) ∨ (a < 128 ∧ m < 128 ∧ r > 127))
      ↔ SpecSignOverflow a m r := by
  unfold SpecSignOverflow
  rw [testBit7_of_lt a ha, testBit7_of_lt m hm, testBit7_of_lt r hr]
  simp only [ne_eq, decide_eq_decide]
  omega

/-- The SBC arm's XOR overflow test is the sign-overflow predicate on the
inputs `a`, `255 - m` (the one's complement of the subtrahend — SBC adds
the complement of `m`) and the result `r`. -/
theorem sbc_overflow_spec (a m r : Nat) (ha : a < 256) (hm : m < 256)
    (hr : r < 256) :
    (a ^^^ m) &&& (a ^^^ r) &&& 0x80 ≠ 0 ↔ SpecSignOverflow a (255 - m) r := by
  rw [and_mask80_ne_zero, Nat.testBit_land, Nat.testBit_xor, Nat.testBit_xor]
  unfold SpecSignOverflow
  rw [testBit7_of_lt a ha, testBit7_of_lt r hr,
    testBit7_of_lt m hm, testBit7_of_lt (255 - m) (by omega)]
  have hcomp : decide (128 ≤ 255 - m) = ! decide (128 ≤ m) := by
    by_cases h : 128 ≤ m <;> simp [h] <;> omega
  rw [hcomp]
  generalize decide (128 ≤ a) = da
  generalize decide (128 ≤ m) = dm
  generalize decide (128 ≤ r) = dr
  cases da <;> cases dm <;> cases dr <;> simp

/-- Claim C1: for every accumulator byte `A`, operand byte `M` and carry
bit `c`, ADC stores `(A + M + c) mod 256` and SBC stores
`(A - M - (1-c)) mod 256`, and in both cases the V flag is set exactly
when the two-input XOR sign-overflow predicate holds (for SBC the second
input is the complement of `M`, the byte the hardware effectively adds). -/
theorem adc_sbc_arith_overflow (a m : Nat) (c : Bool)
    (ha : a < 256) (hm : m < 256) :
    ((adcExec a m c).acc : ℤ) = ((a : ℤ) + m + (if c then 1 else 0)) % 256
    ∧ ((adcExec a m c).overflow = true ↔
        SpecSignOverflow a m ((adcExec a m c).acc))
    ∧ ((sbcExec a m c).acc : ℤ)
        = ((a : ℤ) - m - (1 - (if c then 1 else 0))) % 256
    ∧ ((sbcExec a m c).overflow = true ↔
        SpecSignOverflow a (255 - m) ((sbcExec a m c).acc)) := by
  have hAlt : (adcExec a m c).acc < 256 := by
    simp only [adcExec, wrapAdd8]; omega
  have hSlt : (sbcExec a m c).acc < 256 := by
    simp only [sbcExec, wrapSub8]; omega
  refine ⟨?_, ?_, ?_, ?_⟩
  · cases c <;> simp [adcExec, wrapAdd8]
  · have hiff := adc_overflow_spec a m ((adcExec a m c).acc) ha hm hAlt
    rw [← hiff]
    simp only [adcExec, wrapAdd8, Bool.or_eq_true, Bool.and_eq_true,
      decide_eq_true_eq, and_assoc]
  · cases c <;> simp [sbcExec, wrapSub8] <;> omega
  · have hiff := sbc_overflow_spec a m ((sbcExec a m c).acc) ha hm hSlt
    rw [← hiff]
    simp only [sbcExec, wrapSub8, decide_eq_true_eq]

/-- Witness for C1 at the spec's ADC test vector (`A=$50`, `M=$50`, `C=1`). -/
theorem adc_sbc_arith_overflow_witness :
    (0x50 : Nat) < 256
    ∧ (((adcExec 0x50 0x50 true).acc : ℤ)
          = ((0x50 : ℤ) + 0x50 + (if true then 1 else 0)) % 256
       ∧ ((adcExec 0x50 0x50 true).overflow = true ↔
           SpecSignOverflow 0x50 0x50 ((adcExec 0x50 0x50 true).acc))
       ∧ ((sbcExec 0x50 0x50 true).acc : ℤ)
           = ((0x50 : ℤ) - 0x50 - (1 - (if true then 1 else 0))) % 256
       ∧ ((sbcExec 0x50 0x50 true).overflow = true ↔
           SpecSignOverflow 0x50 (255 - 0x50) ((sbcExec 0x50 0x50 true).acc))) :=
  ⟨by decide, adc_sbc_arith_overflow 0x50 0x50 true (by decide) (by decide)⟩

/-- Claim C2 (code bug): CMP is claimed to set exactly the C/Z/N flags of
SBC with carry initially 1.  At `A=$05`, `M=$00`, carry=1 the code's SBC
clears C (its `did_carry` is `!((result >= acc) && ...)` and here
`result = acc`), while CMP sets C since `A ≥ M`; on a 6502 both set C. -/
theorem cmp_sbc_flag_divergence :
    (cmpExec 0x05 0x00).carry = true
    ∧ (sbcExec 0x05 0x00 true).carry = false
    ∧ (cmpExec 0x05 0x00).carry ≠ (sbcExec 0x05 0x00 true).carry
    ∧ (cmpExec 0x05 0x00).zero = (sbcExec 0x05 0x00 true).zero
    ∧ (cmpExec 0x05 0x00).negative = (sbcExec 0x05 0x00 true).negative := by
  refine ⟨by decide, by decide, by decide, by decide, by decide⟩

/-! ## Program counter, stack and JSR/RTS (claims C3, C4) -/

/-- `ProgramCounter::get_lobyte` (`src/cpu/registers.rs`):
`binary_value as u8`. -/
def getLobyte (pc : Nat) : Nat := pc % 256

/-- `ProgramCounter::get_hibyte` (`src/cpu/registers.rs`):
`(binary_value >> 8) as u8`. -/
def getHibyte (pc : Nat) : Nat := (pc >>> 8) % 256

/-- `ProgramCounter::set_lobyte` (`src/cpu/registers.rs:124-126`):
`(binary_value & 0xFF00) | value as u16`. -/
def setLobyte (pc v : Nat) : Nat := pc &&& 0xFF00 ||| v

/-- `ProgramCounter::set_hibyte` (`src/cpu/registers.rs:128-130`):
`(binary_value & 0x00FF) | ((value as u16) << 8)`. -/
def setHibyte (pc v : Nat) : Nat := pc &&& 0x00FF ||| v <<< 8

/-- `Memory::write` for an address below `$2000` (`src/memory/mod.rs`):
`internal_ram[(address & 0x07ff) as usize] = value`. -/
def ramWrite (ram : Nat → Nat) (address value : Nat) : Nat → Nat :=
  fun i => if i = address &&& 0x7ff then value else ram i

/-- `Memory::read_cpu_mem` for an address below `$2000`
(`src/memory/mod.rs`): `internal_ram[(address & 0x07ff) as usize]`. -/
def ramRead (ram : Nat → Nat) (address : Nat) : Nat := ram (address &&& 0x7ff)

/-- The CPU state fragment JSR/RTS touch: program counter, stack pointer,
and the internal RAM that holds the stack page `$0100-$01FF`. -/
structure StackCpu where
  pc : Nat
  sp : Nat
  ram : Nat → Nat

/-- `Instruction::execute`, `InstructionType::JSR` arm
(`src/cpu/instructions.rs:2157-2172`): write PC's high byte at
`$0100 + S`, decrement S, write PC's low byte `wrapping_sub(1)` at
`$0100 + S`, decrement S, then load the target into PC. -/
def jsrExec (s : StackCpu) (target : Nat) : StackCpu :=
  let ram1 := ramWrite s.ram (s.sp + 0x0100) (getHibyte s.pc)
  let sp1 := wrapSub8 s.sp 1
  let ram2 := ramWrite ram1 (sp1 + 0x0100) (wrapSub8 (getLobyte s.pc) 1)
  let sp2 := wrapSub8 sp1 1
  { pc := target, sp := sp2, ram := ram2 }

/-- `Instruction::execute`, `InstructionType::RTS` arm
(`src/cpu/instructions.rs:2175-2188`): increment S, pull the low byte and
store `lobyte.wrapping_add(1)` into PC's low byte, increment S, pull the
high byte and store it into PC's high byte. -/
def rtsExec (s : StackCpu) : StackCpu :=
  let sp1 := wrapAdd8 s.sp 1
  let lo := ramRead s.ram (sp1 + 0x0100)
  let pc1 := setLobyte s.pc (wrapAdd8 lo 1)
  let sp2 := wrapAdd8 sp1 1
  let hi := ramRead s.ram (sp2 + 0x0100)
  { pc := setHibyte pc1 hi, sp := sp2, ram := s.ram }

/-- Bit `i` of the mask `$FF00`. -/
theorem testBit_ff00 (i : Nat) :
    (0xFF00 : Nat).testBit i = decide (8 ≤ i ∧ i < 16) := by
  have h : (0xFF00 : Nat) = 2 ^ 8 * (2 ^ 8 - 1) + 0 := by norm_num
  rw [h, Nat.testBit_mul_pow_two_add _ (by norm_num : (0 : Nat) < 2 ^ 8) i]
  rcases Nat.lt_or_ge i 8 with hi | hi
  · rw [if_pos hi]
    have hn : ¬ (8 ≤ i ∧ i < 16) := by omega
    simp [Nat.zero_testBit, hn]
  · rw [if_neg (Nat.not_lt.mpr hi), Nat.testBit_two_pow_sub_one]
    simp only [decide_eq_decide]
    omega

/-- Bit `i` of the mask `$FF`. -/
theorem testBit_ff (i : Nat) : (0xFF : Nat).testBit i = decide (i < 8) := by
  have h : (0xFF : Nat) = 2 ^ 8 - 1 := by norm_num
  rw [h, Nat.testBit_two_pow_sub_one]

/-- Writing the low byte and then the high byte of the program counter
yields exactly `256 * hi + lo`, whatever PC held before. -/
theorem setHibyte_setLobyte (pc v h : Nat) (hv : v < 256) (hh : h < 256) :
    setHibyte (setLobyte pc v) h = 256 * h + v := by
  unfold setHibyte setLobyte
  have hrhs : 256 * h + v = 2 ^ 8 * h + v := by norm_num
  rw [hrhs]
  apply Nat.eq_of_testBit_eq
  intro i
  rw [Nat.testBit_mul_pow_two_add h (show v < 2 ^ 8 from hv) i]
  simp only [Nat.testBit_lor, Nat.testBit_land, Nat.testBit_shiftLeft,
    testBit_ff, testBit_ff00]
  rcases Nat.lt_or_ge i 8 with hi | hi
  · have h1 : ¬ (8 ≤ i) := Nat.not_le.mpr hi
    rw [if_pos hi]
    simp [hi, h1]
  · have h1 : ¬ (i < 8) := Nat.not_lt.mpr hi
    rw [if_neg h1]
    simp [hi, h1]

/-- Concrete RTS state: S=$FD, stack bytes `$01FE`=`$FF` (low) and
`$01FF`=`$12` (high), so the pulled return address is `$12FF`. -/
def rtsCex : StackCpu :=
  { pc := 0, sp := 0xFD,
    ram := fun i => if i = 0x1FE then 0xFF else if i = 0x1FF then 0x12 else 0 }

/-- Claim C3 counterexample: with pulled low byte `$FF` and high byte
`$12`, the code's RTS produces PC `$1200` — the increment wraps inside the
low byte and does not carry into the high byte — not the `$1300` a full
16-bit increment of `$12FF` would give. -/
theorem rts_no_carry_counterexample :
    (rtsExec rtsCex).pc = 0x1200 ∧ (rtsExec rtsCex).pc ≠ 0x1300 := by
  constructor <;> decide

/-- Claim C3 as amended: RTS pulls the low then the high byte of the
return address; the new PC is `256 * hi + ((lo + 1) % 256)` — the
increment is applied to the low byte alone and never carries into the
high byte.  Also fixes the resulting stack pointer. -/
theorem rts_low_byte_increment (s : StackCpu) (hsp : s.sp < 256)
    (hram : ∀ i, s.ram i < 256) :
    (rtsExec s).pc
      = 256 * ramRead s.ram (wrapAdd8 (wrapAdd8 s.sp 1) 1 + 0x0100)
        + (ramRead s.ram (wrapAdd8 s.sp 1 + 0x0100) + 1) % 256
    ∧ (rtsExec s).sp = wrapAdd8 (wrapAdd8 s.sp 1) 1 := by
  constructor
  · show setHibyte
        (setLobyte s.pc (wrapAdd8 (ramRead s.ram (wrapAdd8 s.sp 1 + 0x0100)) 1))
        (ramRead s.ram (wrapAdd8 (wrapAdd8 s.sp 1) 1 + 0x0100)) = _
    have hv : wrapAdd8 (ramRead s.ram (wrapAdd8 s.sp 1 + 0x0100)) 1 < 256 := by
      unfold wrapAdd8; omega
    have hh2 : ramRead s.ram (wrapAdd8 (wrapAdd8 s.sp 1) 1 + 0x0100) < 256 := by
      unfold ramRead; exact hram _
    rw [setHibyte_setLobyte _ _ _ hv hh2]
    rfl
  · rfl

/-- Witness for the amended C3 at the concrete state `rtsCex`. -/
theorem rts_low_byte_increment_witness :
    rtsCex.sp < 256
    ∧ ((rtsExec rtsCex).pc
        = 256 * ramRead rtsCex.ram (wrapAdd8 (wrapAdd8 rtsCex.sp 1) 1 + 0x0100)
          + (ramRead rtsCex.ram (wrapAdd8 rtsCex.sp 1 + 0x0100) + 1) % 256
      ∧ (rtsExec rtsCex).sp = wrapAdd8 (wrapAdd8 rtsCex.sp 1) 1) :=
  ⟨by decide, rts_low_byte_increment rtsCex (by decide)
    (fun i => by
      show (if i = 0x1FE then 0xFF else if i = 0x1FF then 0x12 else 0) < 256
      split
      · norm_num
      · split <;> norm_num)⟩

/-- `address & 0x7ff` is `address % 2048`. -/
theorem and_7ff_eq_mod (x : Nat) : x &&& 0x7ff = x % 2048 := by
  have h := Nat.and_pow_two_sub_one_eq_mod x 11
  norm_num at h
  exact h

/-- Claim C4: executing JSR at return address `pcRet` (the PC value after
the three instruction bytes were fetched, i.e. the instruction after the
JSR) and later executing RTS with the two pushed stack bytes untouched —
whatever the PC (`pcSub`) is inside the subroutine — restores PC to
`pcRet` and S to its pre-JSR value.  This holds for every `pcRet`,
including low byte `$00` (JSR pushes `$FF` without borrowing from the
high byte) and `$FF` (RTS wraps the low byte without carrying): the two
byte-local adjustments cancel. -/
theorem jsr_rts_roundtrip (pcRet target pcSub sp : Nat) (ram : Nat → Nat)
    (hpc : pcRet < 65536) (hsp : sp < 256) (hram : ∀ i, ram i < 256) :
    (rtsExec { pc := pcSub,
               sp := (jsrExec ⟨pcRet, sp, ram⟩ target).sp,
               ram := (jsrExec ⟨pcRet, sp, ram⟩ target).ram }).pc = pcRet
    ∧ (rtsExec { pc := pcSub,
                 sp := (jsrExec ⟨pcRet, sp, ram⟩ target).sp,
                 ram := (jsrExec ⟨pcRet, sp, ram⟩ target).ram }).sp = sp := by
  have hJsp : (jsrExec ⟨pcRet, sp, ram⟩ target).sp
      = wrapSub8 (wrapSub8 sp 1) 1 := rfl
  have hJram : (jsrExec ⟨pcRet, sp, ram⟩ target).ram
      = ramWrite (ramWrite ram (sp + 0x0100) (getHibyte pcRet))
          (wrapSub8 sp 1 + 0x0100) (wrapSub8 (getLobyte pcRet) 1) := rfl
  have hram2 : ∀ i, (jsrExec ⟨pcRet, sp, ram⟩ target).ram i < 256 := by
    intro i
    rw [hJram]
    simp only [ramWrite]
    split
    · unfold wrapSub8 getLobyte; omega
    · split
      · unfold getHibyte; exact Nat.mod_lt _ (by norm_num)
      · exact hram i
  have hmain := rts_low_byte_increment
    ⟨pcSub, (jsrExec ⟨pcRet, sp, ram⟩ target).sp,
      (jsrExec ⟨pcRet, sp, ram⟩ target).ram⟩
    (by rw [hJsp]; unfold wrapSub8; omega) hram2
  rw [hJsp, hJram] at hmain
  -- the two stack-pointer walks land back on the written slots
  have hsp1 : wrapAdd8 (wrapSub8 (wrapSub8 sp 1) 1) 1 = wrapSub8 sp 1 := by
    unfold wrapAdd8 wrapSub8; omega
  have hsp2 : wrapAdd8 (wrapSub8 sp 1) 1 = sp := by
    unfold wrapAdd8 wrapSub8; omega
  rw [hsp1, hsp2] at hmain
  -- the low-byte pull reads the second pushed byte
  have hlo : ramRead
      (ramWrite (ramWrite ram (sp + 0x0100) (getHibyte pcRet))
        (wrapSub8 sp 1 + 0x0100) (wrapSub8 (getLobyte pcRet) 1))
      (wrapSub8 sp 1 + 0x0100) = wrapSub8 (getLobyte pcRet) 1 := by
    unfold ramRead ramWrite
    rw [if_pos rfl]
  -- the high-byte pull reads the first pushed byte
  have hhi : ramRead
      (ramWrite (ramWrite ram (sp + 0x0100) (getHibyte pcRet))
        (wrapSub8 sp 1 + 0x0100) (wrapSub8 (getLobyte pcRet) 1))
      (sp + 0x0100) = getHibyte pcRet := by
    unfold ramRead ramWrite
    rw [if_neg, if_pos rfl]
    rw [and_7ff_eq_mod, and_7ff_eq_mod]
    unfold wrapSub8
    omega
  rw [hlo, hhi] at hmain
  rw [hJsp, hJram]
  refine ⟨?_, ?_⟩
  · rw [hmain.1]
    unfold getHibyte getLobyte wrapSub8
    rw [Nat.shiftRight_eq_div_pow]
    omega
  · rw [hmain.2]

/-- Witness for C4 at `pcRet = $1300` (low byte `$00`, the borrow corner),
`target = $8000`, `sp = $FD`, zeroed RAM, subroutine-time PC `$8042`. -/
theorem jsr_rts_roundtrip_witness :
    (0x1300 : Nat) < 65536
    ∧ ((rtsExec { pc := 0x8042,
                  sp := (jsrExec ⟨0x1300, 0xFD, fun _ => 0⟩ 0x8000).sp,
                  ram := (jsrExec ⟨0x1300, 0xFD, fun _ => 0⟩ 0x8000).ram }).pc
          = 0x1300
       ∧ (rtsExec { pc := 0x8042,
                    sp := (jsrExec ⟨0x1300, 0xFD, fun _ => 0⟩ 0x8000).sp,
                    ram := (jsrExec ⟨0x1300, 0xFD, fun _ => 0⟩ 0x8000).ram }).sp
          = 0xFD) :=
  ⟨by decide, jsr_rts_roundtrip 0x1300 0x8000 0x8042 0xFD (fun _ => 0)
    (by decide) (by decide) (fun _ => by norm_num)⟩

/-! ## Indirect JMP (claim C5) -/

/-- `Cpu::get_operand_value`, `AddressingMode::Indirect` arm
(`src/cpu/mod.rs:853-863`), for operand bytes `ll`, `hh` and the CPU bus
modelled as `mem`:
`address = (hh as u16) << 8 | ll`; `memory_ll = read(address)`;
`memory_hh = read(address + 1)`; the effective address is
`(memory_hh as u16) << 8 | memory_ll`.  The high pointer byte is fetched
from `address + 1` even when `ll = $FF`: the fetch crosses into the next
page instead of wrapping inside it. -/
def indirectOperandAddress (mem : Nat → Nat) (ll hh : Nat) : Nat :=
  let address := hh <<< 8 ||| ll
  let memoryLl := mem address
  let memoryHh := mem (address + 1)
  memoryHh <<< 8 ||| memoryLl

/-- `Instruction::execute`, `InstructionType::JMP` arm
(`src/cpu/instructions.rs:2151-2155`): PC := the operand address. -/
def jmpExec (operandAddress : Nat) : Nat := operandAddress

/-- The spec's test-vector memory: `$02FF = $34`, `$0200 = $12`, all other
bytes (in particular `$0300`) zero. -/
def jmpBugMem : Nat → Nat :=
  fun a => if a = 0x02FF then 0x34 else if a = 0x0200 then 0x12 else 0

/-- Claim C5 evaluated on the code: executing `6C FF 02` (JMP `($02FF)`)
with `$02FF = $34` and `$0200 = $12` sets PC to `$0034` — the high byte
comes from `$0300` (which holds 0), not from `$0200` — whereas the claim
(and the MOS 6502's preserved hardware bug) requires PC = `$1234`. -/
theorem jmp_indirect_no_page_wrap :
    jmpExec (indirectOperandAddress jmpBugMem 0xFF 0x02) = 0x0034
    ∧ indirectOperandAddress jmpBugMem 0xFF 0x02 ≠ 0x1234
    ∧ jmpBugMem (0x02FF + 1) = 0 := by
  refine ⟨by decide, by decide, by decide⟩

/-! ## Mapper 1 (claims C6, C7)

The live mapper-1 logic is the `1 => { ... }` arm of `Cartridge::write`
(`src/memory/mod.rs:314-374`); `Memory::write` routes `$4020..` there.
The standalone `Mapper1::write` in `src/memory/mapper/mapper1.rs` is
identical on addresses `$8000-$FFFF`. -/

/-- `tudelft_nes_ppu::Mirroring` values used by the mapper. -/
inductive Mirroring
  | singleScreenLower
  | singleScreenUpper
  | horizontal
  | vertical
deriving DecidableEq, Repr

/-- `ProgramBankMode` (`src/memory/mod.rs`). -/
inductive ProgramBankMode
  | fullswitch
  | fixfirst
  | fixlast
deriving DecidableEq, Repr

/-- `CharacterBankMode` (`src/memory/mod.rs`). -/
inductive CharacterBankMode
  | fullswitch
  | halfswitch
deriving DecidableEq, Repr

/-- `MemoryError` variants reachable from `Cartridge::write`. -/
inductive MemoryError
  | unknownAddress
  | shiftAddressError
  | mapperAddressError (address : Nat)
  | unknownMapper (n : Nat)
deriving DecidableEq, Repr

/-- The `Cartridge` fields the mapper-1 write path touches. -/
structure Mapper1State where
  mirroring : Mirroring
  prgBankMode : ProgramBankMode
  chrBankMode : CharacterBankMode
  prgBank : Nat
  chrBank0 : Nat
  chrBank1 : Nat
  shiftRegister : Nat
  pgrRam : Nat → Nat

/-- The `1 => { ... }` arm of `Cartridge::write`
(`src/memory/mod.rs:314-374`).  If bit 7 of the value is set
(`(value & 0b10000000) == 128`), a write at `$8000..` sets mirroring to
single-screen-lower, PRG mode to Fix-last and CHR mode to Fullswitch
(the shift register is left as it is); `$6000-$7FFF` stores to PRG-RAM;
lower addresses return `Ok` unchanged.  Otherwise the bit is shifted in:
`shift = (shift >> 1) | ((value & 1) << 4)`; when the sentinel bit has
reached position 0 (`shift & 1 == 1` before the write) the shifted value
is committed to the register selected by the address range and the shift
register is reset to 16.  (On the dead `Err` arms the Rust code would
also keep the updated shift register; the claims only exercise `Ok`
paths.) -/
def mapper1Write (s : Mapper1State) (address value : Nat) :
    Except MemoryError Mapper1State :=
  if value &&& 0b10000000 = 128 then
    if 0x6000 ≤ address ∧ address < 0x8000 then
      .ok { s with pgrRam := fun i => if i = address - 0x6000 then value
                                      else s.pgrRam i }
    else if 0x8000 ≤ address then
      .ok { s with mirroring := .singleScreenLower,
                   prgBankMode := .fixlast,
                   chrBankMode := .fullswitch }
    else
      .ok s
  else if s.shiftRegister &&& 1 ≠ 1 then
    .ok { s with shiftRegister := s.shiftRegister >>> 1 ||| (value &&& 1) <<< 4 }
  else
    let sr := s.shiftRegister >>> 1 ||| (value &&& 1) <<< 4
    if 0x6000 ≤ address ∧ address < 0x8000 then
      .ok { s with pgrRam := fun i => if i = address - 0x6000 then value
                                      else s.pgrRam i,
                   shiftRegister := 16 }
    else if 0x8000 ≤ address ∧ address < 0xa000 then
      (if sr &&& 3 = 0 then Except.ok Mirroring.singleScreenLower
       else if sr &&& 3 = 1 then Except.ok Mirroring.singleScreenUpper
       else if sr &&& 3 = 2 then Except.ok Mirroring.horizontal
       else if sr &&& 3 = 3 then Except.ok Mirroring.vertical
       else Except.error MemoryError.shiftAddressError).bind fun mir =>
      (if (sr >>> 2) &&& 3 = 0 ∨ (sr >>> 2) &&& 3 = 1 then
         Except.ok ProgramBankMode.fullswitch
       else if (sr >>> 2) &&& 3 = 2 then Except.ok ProgramBankMode.fixfirst
       else if (sr >>> 2) &&& 3 = 3 then Except.ok ProgramBankMode.fixlast
       else Except.error MemoryError.shiftAddressError).bind fun pm =>
      .ok { s with mirroring := mir, prgBankMode := pm,
                   chrBankMode := if (sr >>> 4) &&& 1 = 0 then .fullswitch
                                  else .halfswitch,
                   shiftRegister := 16 }
    else if 0xa000 ≤ address ∧ address < 0xc000 then
      .ok { s with chrBank0 := sr, shiftRegister := 16 }
    else if 0xc000 ≤ address ∧ address < 0xe000 then
      .ok { s with chrBank1 := sr, shiftRegister := 16 }
    else if 0xe000 ≤ address then
      .ok { s with prgBank := sr, shiftRegister := 16 }
    else
      .error (.mapperAddressError address)

/-- A mapper-1 state mid-load: mirroring Horizontal, CHR mode Halfswitch,
shift register `8` (one even bit already shifted in from the empty
state `16`). -/
def m1Cex : Mapper1State :=
  { mirroring := .horizontal, prgBankMode := .fullswitch,
    chrBankMode := .halfswitch, prgBank := 0, chrBank0 := 0, chrBank1 := 0,
    shiftRegister := 8, pgrRam := fun _ => 0 }

/-- Claim C6 counterexample: a bit-7 write (`$80` to `$8000`) from `m1Cex`
leaves the shift register at `8` (it is NOT reset to the empty state 16)
and forces mirroring to single-screen-lower and CHR mode to Fullswitch
(they are NOT left unchanged, as an OR with `$0C` would have done). -/
theorem mapper1_reset_counterexample :
    (mapper1Write m1Cex 0x8000 0x80).toOption.map Mapper1State.shiftRegister
      = some 8
    ∧ (mapper1Write m1Cex 0x8000 0x80).toOption.map Mapper1State.mirroring
      = some Mirroring.singleScreenLower
    ∧ (mapper1Write m1Cex 0x8000 0x80).toOption.map Mapper1State.chrBankMode
      = some CharacterBankMode.fullswitch
    ∧ m1Cex.shiftRegister ≠ 16
    ∧ m1Cex.mirroring ≠ Mirroring.singleScreenLower
    ∧ m1Cex.chrBankMode ≠ CharacterBankMode.fullswitch := by
  refine ⟨by decide, by decide, by decide, by decide, by decide, by decide⟩

/-- Claim C6 as amended: for every mapper-1 state and every address in
`$8000-$FFFF`, a write whose data byte has bit 7 set forces the control
state to the decoded value of `$0C` — mirroring single-screen-lower, PRG
mode Fix-last-16K, CHR mode Fullswitch — overwriting the previous
mirroring and CHR-mode settings, and leaves the shift register (and every
other field) unchanged; it is not reset. -/
theorem mapper1_reset_write (s : Mapper1State) (address value : Nat)
    (ha : 0x8000 ≤ address) (hv : value &&& 0b10000000 = 128) :
    mapper1Write s address value
      = .ok { s with mirroring := .singleScreenLower,
                     prgBankMode := .fixlast,
                     chrBankMode := .fullswitch } := by
  unfold mapper1Write
  rw [if_pos hv, if_neg (by omega : ¬ (0x6000 ≤ address ∧ address < 0x8000)),
    if_pos ha]

/-- Witness for the amended C6 at the concrete state `m1Cex`. -/
theorem mapper1_reset_write_witness :
    mapper1Write m1Cex 0x8000 0x80
      = .ok { m1Cex with mirroring := .singleScreenLower,
                         prgBankMode := .fixlast,
                         chrBankMode := .fullswitch } :=
  mapper1_reset_write m1Cex 0x8000 0x80 (by decide) (by decide)

/-- A sequence of `Cartridge::write` calls on the mapper-1 arm,
propagating errors (`?` in Rust). -/
def mapper1WriteSeq (s : Mapper1State) :
    List (Nat × Nat) → Except MemoryError Mapper1State
  | [] => .ok s
  | (a, v) :: rest => (mapper1Write s a v).bind fun s' => mapper1WriteSeq s' rest

/-- Spec-side definition (claim C7 wording): the little-endian 5-bit
assembly `b0 + 2*b1 + 4*b2 + 8*b3 + 16*b4` of the bit-0s of the five
written bytes. -/
def specSerialValue (v1 v2 v3 v4 v5 : Nat) : Nat :=
  (v1 &&& 1) + 2 * (v2 &&& 1) + 4 * (v3 &&& 1) + 8 * (v4 &&& 1)
    + 16 * (v5 &&& 1)

/-- Spec-side decoding of the control value: mirroring from bits 0-1. -/
def decodeMirroring (x : Nat) : Mirroring :=
  if x &&& 3 = 0 then .singleScreenLower
  else if x &&& 3 = 1 then .singleScreenUpper
  else if x &&& 3 = 2 then .horizontal
  else .vertical

/-- Spec-side decoding of the control value: PRG mode from bits 2-3. -/
def decodePrgMode (x : Nat) : ProgramBankMode :=
  if (x >>> 2) &&& 3 = 0 ∨ (x >>> 2) &&& 3 = 1 then .fullswitch
  else if (x >>> 2) &&& 3 = 2 then .fixfirst
  else .fixlast

/-- Spec-side decoding of the control value: CHR mode from bit 4. -/
def decodeChrMode (x : Nat) : CharacterBankMode :=
  if (x >>> 4) &&& 1 = 0 then .fullswitch else .halfswitch

/-- Low bits OR a left shift is addition when the low bits fit. -/
theorem lowbits_lor_shift (a c k : Nat) (ha : a < 2 ^ k) :
    a ||| c <<< k = 2 ^ k * c + a := by
  rw [Nat.lor_comm]
  apply Nat.eq_of_testBit_eq
  intro i
  rw [Nat.testBit_mul_pow_two_add c ha i, Nat.testBit_lor, Nat.testBit_shiftLeft]
  rcases Nat.lt_or_ge i k with hi | hi
  · rw [if_pos hi]
    simp [Nat.not_le.mpr hi]
  · rw [if_neg (Nat.not_lt.mpr hi)]
    have hz : a.testBit i = false :=
      Nat.testBit_lt_two_pow (Nat.lt_of_lt_of_le ha (Nat.pow_le_pow_right (by norm_num) hi))
    simp [hi, hz]

/-- A non-reset write while the sentinel has not reached bit 0 only
shifts the data bit in. -/
theorem m1w_shift (s : Mapper1State) (a v : Nat) (hv : v &&& 0b10000000 ≠ 128)
    (hodd : s.shiftRegister &&& 1 ≠ 1) :
    mapper1Write s a v
      = .ok { s with shiftRegister := s.shiftRegister >>> 1 ||| (v &&& 1) <<< 4 } := by
  unfold mapper1Write
  rw [if_neg hv, if_pos hodd]

/-- The fifth non-reset write with target in `$A000-$BFFF` commits the
assembled value to CHR-bank-0 and resets the shift register. -/
theorem m1w_commit_chr0 (s : Mapper1State) (a v : Nat)
    (hv : v &&& 0b10000000 ≠ 128) (hone : s.shiftRegister &&& 1 = 1)
    (ha : 0xa000 ≤ a) (ha2 : a < 0xc000) :
    mapper1Write s a v
      = .ok { s with chrBank0 := s.shiftRegister >>> 1 ||| (v &&& 1) <<< 4,
                     shiftRegister := 16 } := by
  unfold mapper1Write
  rw [if_neg hv, if_neg (by simp [hone]),
    if_neg (by omega : ¬ (0x6000 ≤ a ∧ a < 0x8000)),
    if_neg (by omega : ¬ (0x8000 ≤ a ∧ a < 0xa000)),
    if_pos ⟨ha, ha2⟩]

/-- The fifth non-reset write with target in `$C000-$DFFF` commits the
assembled value to CHR-bank-1 and resets the shift register. -/
theorem m1w_commit_chr1 (s : Mapper1State) (a v : Nat)
    (hv : v &&& 0b10000000 ≠ 128) (hone : s.shiftRegister &&& 1 = 1)
    (ha : 0xc000 ≤ a) (ha2 : a < 0xe000) :
    mapper1Write s a v
      = .ok { s with chrBank1 := s.shiftRegister >>> 1 ||| (v &&& 1) <<< 4,
                     shiftRegister := 16 } := by
  unfold mapper1Write
  rw [if_neg hv, if_neg (by simp [hone]),
    if_neg (by omega : ¬ (0x6000 ≤ a ∧ a < 0x8000)),
    if_neg (by omega : ¬ (0x8000 ≤ a ∧ a < 0xa000)),
    if_neg (by omega : ¬ (0xa000 ≤ a ∧ a < 0xc000)),
    if_pos ⟨ha, ha2⟩]

/-- The fifth non-reset write with target in `$E000-$FFFF` commits the
assembled value to the PRG-bank register and resets the shift register. -/
theorem m1w_commit_prg (s : Mapper1State) (a v : Nat)
    (hv : v &&& 0b10000000 ≠ 128) (hone : s.shiftRegister &&& 1 = 1)
    (ha : 0xe000 ≤ a) :
    mapper1Write s a v
      = .ok { s with prgBank := s.shiftRegister >>> 1 ||| (v &&& 1) <<< 4,
                     shiftRegister := 16 } := by
  unfold mapper1Write
  rw [if_neg hv, if_neg (by simp [hone]),
    if_neg (by omega : ¬ (0x6000 ≤ a ∧ a < 0x8000)),
    if_neg (by omega : ¬ (0x8000 ≤ a ∧ a < 0xa000)),
    if_neg (by omega : ¬ (0xa000 ≤ a ∧ a < 0xc000)),
    if_neg (by omega : ¬ (0xc000 ≤ a ∧ a < 0xe000)),
    if_pos ha]

/-- The fifth non-reset write with target in `$8000-$9FFF` decodes the
assembled value into mirroring, PRG mode and CHR mode and resets the
shift register. -/
theorem m1w_commit_control (s : Mapper1State) (a v : Nat)
    (hv : v &&& 0b10000000 ≠ 128) (hone : s.shiftRegister &&& 1 = 1)
    (ha : 0x8000 ≤ a) (ha2 : a < 0xa000) :
    mapper1Write s a v
      = .ok { s with
          mirroring := decodeMirroring (s.shiftRegister >>> 1 ||| (v &&& 1) <<< 4),
          prgBankMode := decodePrgMode (s.shiftRegister >>> 1 ||| (v &&& 1) <<< 4),
          chrBankMode := decodeChrMode (s.shiftRegister >>> 1 ||| (v &&& 1) <<< 4),
          shiftRegister := 16 } := by
  unfold mapper1Write decodeMirroring decodePrgMode decodeChrMode
  rw [if_neg hv, if_neg (by simp [hone]),
    if_neg (by omega : ¬ (0x6000 ≤ a ∧ a < 0x8000)),
    if_pos ⟨ha, ha2⟩]
  have h3 : ∀ x : Nat, x &&& 3 = x % 4 := by
    intro x
    have h := Nat.and_pow_two_sub_one_eq_mod x 2
    norm_num at h
    exact h
  set x := s.shiftRegister >>> 1 ||| (v &&& 1) <<< 4 with hx
  have hm : x &&& 3 = 0 ∨ x &&& 3 = 1 ∨ x &&& 3 = 2 ∨ x &&& 3 = 3 := by
    rw [h3]; omega
  have hp : (x >>> 2) &&& 3 = 0 ∨ (x >>> 2) &&& 3 = 1 ∨ (x >>> 2) &&& 3 = 2
      ∨ (x >>> 2) &&& 3 = 3 := by
    rw [h3]; omega
  rcases hm with hm | hm | hm | hm <;> rcases hp with hp | hp | hp | hp <;>
    simp [hm, hp, Except.bind]

/-- Claim C7: from an empty shift register (sentinel value 16), five
writes to `$8000-$FFFF` with bit 7 clear latch
`b0 + 2*b1 + 4*b2 + 8*b3 + 16*b4` (bit 0 of each written byte, in write
order) into the register group selected by the fifth write's address —
CHR-bank-0, CHR-bank-1 or PRG-bank directly, the control group as its
decoded mirroring/PRG-mode/CHR-mode fields — and leave the shift register
empty (16) again. -/
theorem mapper1_serial_load (s : Mapper1State)
    (a1 a2 a3 a4 a5 v1 v2 v3 v4 v5 : Nat)
    (hs : s.shiftRegister = 16)
    (ha1 : 0x8000 ≤ a1) (ha2 : 0x8000 ≤ a2) (ha3 : 0x8000 ≤ a3)
    (ha4 : 0x8000 ≤ a4) (ha5 : 0x8000 ≤ a5)
    (hv1 : v1 &&& 0b10000000 ≠ 128) (hv2 : v2 &&& 0b10000000 ≠ 128)
    (hv3 : v3 &&& 0b10000000 ≠ 128) (hv4 : v4 &&& 0b10000000 ≠ 128)
    (hv5 : v5 &&& 0b10000000 ≠ 128) :
    (a5 < 0xa000 →
      mapper1WriteSeq s [(a1, v1), (a2, v2), (a3, v3), (a4, v4), (a5, v5)]
        = .ok { s with
            mirroring := decodeMirroring (specSerialValue v1 v2 v3 v4 v5),
            prgBankMode := decodePrgMode (specSerialValue v1 v2 v3 v4 v5),
            chrBankMode := decodeChrMode (specSerialValue v1 v2 v3 v4 v5),
            shiftRegister := 16 })
    ∧ (0xa000 ≤ a5 → a5 < 0xc000 →
      mapper1WriteSeq s [(a1, v1), (a2, v2), (a3, v3), (a4, v4), (a5, v5)]
        = .ok { s with chrBank0 := specSerialValue v1 v2 v3 v4 v5,
                       shiftRegister := 16 })
    ∧ (0xc000 ≤ a5 → a5 < 0xe000 →
      mapper1WriteSeq s [(a1, v1), (a2, v2), (a3, v3), (a4, v4), (a5, v5)]
        = .ok { s with chrBank1 := specSerialValue v1 v2 v3 v4 v5,
                       shiftRegister := 16 })
    ∧ (0xe000 ≤ a5 →
      mapper1WriteSeq s [(a1, v1), (a2, v2), (a3, v3), (a4, v4), (a5, v5)]
        = .ok { s with prgBank := specSerialValue v1 v2 v3 v4 v5,
                       shiftRegister := 16 }) := by
  have hb1 : v1 &&& 1 ≤ 1 := by rw [Nat.and_one_is_mod]; omega
  have hb2 : v2 &&& 1 ≤ 1 := by rw [Nat.and_one_is_mod]; omega
  have hb3 : v3 &&& 1 ≤ 1 := by rw [Nat.and_one_is_mod]; omega
  have hb4 : v4 &&& 1 ≤ 1 := by rw [Nat.and_one_is_mod]; omega
  have hb5 : v5 &&& 1 ≤ 1 := by rw [Nat.and_one_is_mod]; omega
  have e0 : s.shiftRegister &&& 1 ≠ 1 := by rw [hs]; decide
  have w1 := m1w_shift s a1 v1 hv1 e0
  set s1 : Mapper1State :=
    { s with shiftRegister := s.shiftRegister >>> 1 ||| (v1 &&& 1) <<< 4 }
    with hs1
  have hs1v : s1.shiftRegister = 16 * (v1 &&& 1) + 8 := by
    show s.shiftRegister >>> 1 ||| (v1 &&& 1) <<< 4 = _
    rw [hs]
    have h16 : (16 : Nat) >>> 1 = 8 := by decide
    rw [h16, lowbits_lor_shift 8 (v1 &&& 1) 4 (by norm_num)]
    omega
  have e1 : s1.shiftRegister &&& 1 ≠ 1 := by
    rw [Nat.and_one_is_mod, hs1v]; omega
  have w2 := m1w_shift s1 a2 v2 hv2 e1
  set s2 : Mapper1State :=
    { s1 with shiftRegister := s1.shiftRegister >>> 1 ||| (v2 &&& 1) <<< 4 }
    with hs2
  have hs2v : s2.shiftRegister = 16 * (v2 &&& 1) + 8 * (v1 &&& 1) + 4 := by
    show s1.shiftRegister >>> 1 ||| (v2 &&& 1) <<< 4 = _
    rw [hs1v, Nat.shiftRight_eq_div_pow]
    have hdiv : (16 * (v1 &&& 1) + 8) / 2 ^ 1 = 8 * (v1 &&& 1) + 4 := by omega
    rw [hdiv, lowbits_lor_shift _ _ 4 (by omega)]
    omega
  have e2 : s2.shiftRegister &&& 1 ≠ 1 := by
    rw [Nat.and_one_is_mod, hs2v]; omega
  have w3 := m1w_shift s2 a3 v3 hv3 e2
  set s3 : Mapper1State :=
    { s2 with shiftRegister := s2.shiftRegister >>> 1 ||| (v3 &&& 1) <<< 4 }
    with hs3
  have hs3v : s3.shiftRegister
      = 16 * (v3 &&& 1) + 8 * (v2 &&& 1) + 4 * (v1 &&& 1) + 2 := by
    show s2.shiftRegister >>> 1 ||| (v3 &&& 1) <<< 4 = _
    rw [hs2v, Nat.shiftRight_eq_div_pow]
    have hdiv : (16 * (v2 &&& 1) + 8 * (v1 &&& 1) + 4) / 2 ^ 1
        = 8 * (v2 &&& 1) + 4 * (v1 &&& 1) + 2 := by omega
    rw [hdiv, lowbits_lor_shift _ _ 4 (by omega)]
    omega
  have e3 : s3.shiftRegister &&& 1 ≠ 1 := by
    rw [Nat.and_one_is_mod, hs3v]; omega
  have w4 := m1w_shift s3 a4 v4 hv4 e3
  set s4 : Mapper1State :=
    { s3 with shiftRegister := s3.shiftRegister >>> 1 ||| (v4 &&& 1) <<< 4 }
    with hs4
  have hs4v : s4.shiftRegister
      = 16 * (v4 &&& 1) + 8 * (v3 &&& 1) + 4 * (v2 &&& 1)
        + 2 * (v1 &&& 1) + 1 := by
    show s3.shiftRegister >>> 1 ||| (v4 &&& 1) <<< 4 = _
    rw [hs3v, Nat.shiftRight_eq_div_pow]
    have hdiv : (16 * (v3 &&& 1) + 8 * (v2 &&& 1) + 4 * (v1 &&& 1) + 2) / 2 ^ 1
        = 8 * (v3 &&& 1) + 4 * (v2 &&& 1) + 2 * (v1 &&& 1) + 1 := by omega
    rw [hdiv, lowbits_lor_shift _ _ 4 (by omega)]
    omega
  have e4 : s4.shiftRegister &&& 1 = 1 := by
    rw [Nat.and_one_is_mod, hs4v]; omega
  have hX : s4.shiftRegister >>> 1 ||| (v5 &&& 1) <<< 4
      = specSerialValue v1 v2 v3 v4 v5 := by
    rw [hs4v, Nat.shiftRight_eq_div_pow]
    have hdiv : (16 * (v4 &&& 1) + 8 * (v3 &&& 1) + 4 * (v2 &&& 1)
          + 2 * (v1 &&& 1) + 1) / 2 ^ 1
        = 8 * (v4 &&& 1) + 4 * (v3 &&& 1) + 2 * (v2 &&& 1) + (v1 &&& 1) := by
      omega
    rw [hdiv, lowbits_lor_shift _ _ 4 (by omega)]
    unfold specSerialValue
    omega
  have hchain : mapper1WriteSeq s [(a1, v1), (a2, v2), (a3, v3), (a4, v4), (a5, v5)]
      = mapper1WriteSeq s4 [(a5, v5)] := by
    simp only [mapper1WriteSeq]
    rw [w1]; simp only [Except.bind]
    rw [w2]; simp only [Except.bind]
    rw [w3]; simp only [Except.bind]
    rw [w4]
  refine ⟨?_, ?_, ?_, ?_⟩
  · intro hr
    rw [hchain]
    simp only [mapper1WriteSeq]
    rw [m1w_commit_control s4 a5 v5 hv5 e4 ha5 hr]
    simp only [Except.bind]
    rw [hX]
  · intro hl hr
    rw [hchain]
    simp only [mapper1WriteSeq]
    rw [m1w_commit_chr0 s4 a5 v5 hv5 e4 hl hr]
    simp only [Except.bind]
    rw [hX]
  · intro hl hr
    rw [hchain]
    simp only [mapper1WriteSeq]
    rw [m1w_commit_chr1 s4 a5 v5 hv5 e4 hl hr]
    simp only [Except.bind]
    rw [hX]
  · intro hl
    rw [hchain]
    simp only [mapper1WriteSeq]
    rw [m1w_commit_prg s4 a5 v5 hv5 e4 hl]
    simp only [Except.bind]
    rw [hX]

/-- Witness for C7 at the spec's Mapper1-load test vector: four writes of
`$00` to `$8000`, then `$00` to `$E000`; the PRG-bank register becomes 0
and the shift register is empty again. -/
theorem mapper1_serial_load_witness :
    mapper1WriteSeq { m1Cex with shiftRegister := 16 }
        [(0x8000, 0), (0x8000, 0), (0x8000, 0), (0x8000, 0), (0xe000, 0)]
      = .ok { { m1Cex with shiftRegister := 16 } with
              prgBank := specSerialValue 0 0 0 0 0,
              shiftRegister := 16 } :=
  (mapper1_serial_load { m1Cex with shiftRegister := 16 }
    0x8000 0x8000 0x8000 0x8000 0xe000 0 0 0 0 0 (by decide)
    (by decide) (by decide) (by decide) (by decide) (by decide)
    (by decide) (by decide) (by decide) (by decide) (by decide)).2.2.2
    (by decide)

/-! ## Mapper 0 (claim C8)

The live mapper-0 logic is the `0 => { ... }` arm of `Cartridge::write`
(`src/memory/mod.rs:299-313`) and of `Cartridge::read`; `Memory::write`
routes `$4020..` there.  (The standalone `Mapper0` in
`src/memory/mapper/mapper0.rs` likewise stores ROM-range writes into
`prg_rom`.) -/

/-- `RomError` variants reachable from `Cartridge::read`. -/
inductive RomError
  | unknownAddress
  | unknownMapper (n : Nat)
deriving DecidableEq, Repr

/-- The `Cartridge` fields the mapper-0 paths touch: PRG-RAM, the PRG data
vector (of length `prgLen`, indexed `address % prgLen`), and the
`init_code` tail served at `$FF00..`. -/
structure Mapper0State where
  pgrRam : Nat → Nat
  prgData : Nat → Nat
  prgLen : Nat
  initCode : Nat → Nat

/-- The `0 => { ... }` arm of `Cartridge::write` (`src/memory/mod.rs:299-313`):
`$6000-$7FFF` stores to `pgr_ram[(address - 0x6000) & 0x7ff]`;
`$8000..` stores to `prg_data[address % prg_data.len()]` — the write into
the ROM range is NOT dropped; lower addresses give `UnknownAddress`. -/
def mapper0Write (s : Mapper0State) (address value : Nat) :
    Except MemoryError Mapper0State :=
  if 0x6000 ≤ address ∧ address < 0x8000 then
    .ok { s with pgrRam := fun i => if i = (address - 0x6000) &&& 0x7ff then value
                                    else s.pgrRam i }
  else if 0x8000 ≤ address then
    .ok { s with prgData := fun i => if i = address % s.prgLen then value
                                     else s.prgData i }
  else
    .error .unknownAddress

/-- The `0 => { ... }` arm of `Cartridge::read` (`src/memory/mod.rs:386-396`):
`$6000-$7FFF` reads `pgr_ram[address - 0x6000]`; `$8000-$FEFF` reads
`prg_data[address % prg_data.len()]`; `$FF00..` reads
`init_code[address - 0xff00]`. -/
def mapper0Read (s : Mapper0State) (address : Nat) : Except RomError Nat :=
  if 0x6000 ≤ address ∧ address < 0x8000 then
    .ok (s.pgrRam (address - 0x6000))
  else if 0x8000 ≤ address ∧ address < 0xff00 then
    .ok (s.prgData (address % s.prgLen))
  else if 0xff00 ≤ address then
    .ok (s.initCode (address - 0xff00))
  else
    .error .unknownAddress

/-- A concrete NROM-128 cartridge state: 16 KiB of zeroed PRG data. -/
def m0Cex : Mapper0State :=
  { pgrRam := fun _ => 0, prgData := fun _ => 0, prgLen := 0x4000,
    initCode := fun _ => 0 }

/-- Claim C8 counterexample: on `m0Cex` the ROM-range write
`$8000 := $AB` is not dropped — reading `$8000` returned 0 before and
returns `$AB` afterwards. -/
theorem mapper0_rom_write_counterexample :
    mapper0Read m0Cex 0x8000 = .ok 0
    ∧ (mapper0Write m0Cex 0x8000 0xAB).toOption.map
        (fun s' => mapper0Read s' 0x8000) = some (.ok 0xAB)
    ∧ (Except.ok 0xAB : Except RomError Nat) ≠ .ok 0 := by
  refine ⟨by rfl, by rfl, by simp⟩

/-- Claim C8 as amended: a mapper-0 write to `$8000-$FFFF` is stored into
the PRG data at index `address % prg_len` (so any later read of the ROM
range whose index coincides returns the written byte instead of the ROM
byte), while `$6000-$7FFF` writes go to PRG-RAM at
`(address - $6000) & $7FF`. -/
theorem mapper0_rom_write_stores (s : Mapper0State) (address value : Nat)
    (h8 : 0x8000 ≤ address) :
    mapper0Write s address value
      = .ok { s with prgData := fun i => if i = address % s.prgLen then value
                                         else s.prgData i }
    ∧ (∀ a2, 0x8000 ≤ a2 → a2 < 0xff00 → a2 % s.prgLen = address % s.prgLen →
        mapper0Read
          { s with prgData := fun i => if i = address % s.prgLen then value
                                       else s.prgData i } a2
          = .ok value)
    ∧ (∀ b w, 0x6000 ≤ b → b < 0x8000 →
        mapper0Write s b w
          = .ok { s with pgrRam := fun i => if i = (b - 0x6000) &&& 0x7ff then w
                                            else s.pgrRam i }) := by
  refine ⟨?_, ?_, ?_⟩
  · unfold mapper0Write
    rw [if_neg (by omega : ¬ (0x6000 ≤ address ∧ address < 0x8000)),
      if_pos h8]
  · intro a2 hl hr hmod
    unfold mapper0Read
    rw [if_neg (by omega : ¬ (0x6000 ≤ a2 ∧ a2 < 0x8000)),
      if_pos ⟨hl, hr⟩]
    dsimp only
    rw [hmod, if_pos rfl]
  · intro b w hl hr
    unfold mapper0Write
    rw [if_pos ⟨hl, hr⟩]

/-- Witness for the amended C8 on `m0Cex` at address `$8000`. -/
theorem mapper0_rom_write_stores_witness :
    (mapper0Write m0Cex 0x8000 0xAB
      = .ok { m0Cex with
              prgData := fun i => if i = 0x8000 % m0Cex.prgLen then 0xAB
                                  else m0Cex.prgData i })
    ∧ (∀ a2, 0x8000 ≤ a2 → a2 < 0xff00 → a2 % m0Cex.prgLen = 0x8000 % m0Cex.prgLen →
        mapper0Read
          { m0Cex with
            prgData := fun i => if i = 0x8000 % m0Cex.prgLen then 0xAB
                                else m0Cex.prgData i } a2
          = .ok 0xAB)
    ∧ (∀ b w, 0x6000 ≤ b → b < 0x8000 →
        mapper0Write m0Cex b w
          = .ok { m0Cex with
                  pgrRam := fun i => if i = (b - 0x6000) &&& 0x7ff then w
                                     else m0Cex.pgrRam i }) :=
  mapper0_rom_write_stores m0Cex 0x8000 0xAB (by decide)

/-! ## OAM DMA (claim C9) -/

/-- Outcome of `Memory::read_cpu_mem`: an `Ok` byte, an `Err`, or a
`panic!`. -/
inductive CpuReadResult
  | ok (v : Nat)
  | err
  | panicked
deriving DecidableEq, Repr

/-- The `Memory` fields `read_cpu_mem` dispatches over.  The PPU-byte and
cartridge sub-reads (`read_ppu_byte`, `Cartridge::read`) are carried as
abstract functions of the state; the dispatch itself is what the claim
exercises, and the failing DMA page never reaches either sub-read. -/
structure MemoryBus where
  internalRam : Nat → Nat
  ppuRead : Nat → CpuReadResult
  cartRead : Nat → CpuReadResult

/-- `Memory::read_cpu_mem` (`src/memory/mod.rs:161-184`): internal RAM
below `$2000` (mirrored, `address & 0x07ff`); `read_ppu_byte(address -
0x2000)` for `$2000-$3FFF`; open-bus `Ok(0)` for `$4000-$4015`; the
`$4016` arm is `panic!("You have to use the read function if you want to
access the controller")`; `Ok(0)` for `$4017`, `$4018-$401F` and
`$4020-$5FFF`; `Cartridge::read` from `$6000`. -/
def readCpuMem (s : MemoryBus) (address : Nat) : CpuReadResult :=
  if address < 0x2000 then .ok (s.internalRam (address &&& 0x7ff))
  else if address < 0x4000 then s.ppuRead (address - 0x2000)
  else if address < 0x4016 then .ok 0
  else if address = 0x4016 then .panicked
  else if address = 0x4017 then .ok 0
  else if address < 0x4020 then .ok 0
  else if address < 0x6000 then .ok 0
  else s.cartRead address

/-- The `$4014` arm of `Memory::write` (`src/memory/mod.rs:114-122`):
`for i in 0..256 { oamdata[i] = read_cpu_mem(((value as u16) << 8) + i)
.expect("invalid oam read") }` followed by `ppu.write_oam_dma(oamdata)`.
Returns the 256 source bytes when every read is `Ok`; `none` models the
loop panicking (either through the `.expect` on an `Err` or through the
`panic!` arm of `read_cpu_mem` itself). -/
def oamDmaBytes (s : MemoryBus) (value : Nat) : Option (List Nat) :=
  (List.range 256).mapM fun i =>
    match readCpuMem s ((value <<< 8) + i) with
    | .ok v => some v
    | _ => none

/-- A bus whose RAM is zeroed and whose PPU/cartridge sub-reads always
succeed, isolating `read_cpu_mem`'s own dispatch. -/
def dmaBus : MemoryBus :=
  { internalRam := fun _ => 0, ppuRead := fun _ => .ok 0,
    cartRead := fun _ => .ok 0 }

set_option maxRecDepth 8000 in
/-- Claim C9 evaluated on the code: page `$40` makes the DMA loop read
`$4016`, whose `read_cpu_mem` arm panics, so the copy aborts — even on a
bus whose every sub-read succeeds — while a RAM page such as `$00`
copies 256 bytes.  The claim that the copy returns without panicking for
every page is false. -/
theorem oam_dma_page40_panics :
    readCpuMem dmaBus 0x4016 = .panicked
    ∧ oamDmaBytes dmaBus 0x40 = none
    ∧ oamDmaBytes dmaBus 0x00 = some (List.replicate 256 0) := by
  refine ⟨by rfl, by rfl, by rfl⟩

/-! ## Controller (claim C10) -/

/-- `tudelft_nes_ppu::Buttons`: the eight joypad buttons. -/
structure Buttons where
  a : Bool
  b : Bool
  select : Bool
  start : Bool
  up : Bool
  down : Bool
  left : Bool
  right : Bool
deriving DecidableEq, Repr

/-- `Buttons::default()`: all released. -/
def buttonsDefault : Buttons :=
  ⟨false, false, false, false, false, false, false, false⟩

/-- `Controller` (`src/memory/controller.rs:3-9`): strobe bit, latched
buttons, and the index of the button being read. -/
structure ControllerState where
  strobe : Bool
  buttons : Buttons
  readIndex : Nat

/-- `Controller::new` (`src/memory/controller.rs:53-59`). -/
def controllerNew : ControllerState :=
  { strobe := false, buttons := buttonsDefault, readIndex := 0 }

/-- `Controller::clock_pulse` (`src/memory/controller.rs:21-26`): while
strobe is high, latch the live joypad state and reset the read index. -/
def clockPulse (s : ControllerState) (joy : Buttons) : ControllerState :=
  if s.strobe then { s with buttons := joy, readIndex := 0 } else s

/-- `Controller::write` (`src/memory/controller.rs:15-18`): strobe from
bit 0 of the written byte, then a clock pulse. -/
def controllerWrite (s : ControllerState) (byte : Nat) (joy : Buttons) :
    ControllerState :=
  clockPulse { s with strobe := decide (byte &&& 1 = 1) } joy

/-- The `match self.read_index` of `Controller::read`
(`src/memory/controller.rs:32-42`); `none` is the
`panic!("Button reading out of bounds!")` arm. -/
def buttonAt (s : ControllerState) : Option Bool :=
  if s.readIndex = 0 then some s.buttons.a
  else if s.readIndex = 1 then some s.buttons.b
  else if s.readIndex = 2 then some s.buttons.select
  else if s.readIndex = 3 then some s.buttons.start
  else if s.readIndex = 4 then some s.buttons.up
  else if s.readIndex = 5 then some s.buttons.down
  else if s.readIndex = 6 then some s.buttons.left
  else if s.readIndex = 7 then some s.buttons.right
  else none

/-- `Controller::read` (`src/memory/controller.rs:31-51`): read the
current button as a 0/1 byte, advance the index (`read_index += 1`,
wrapping to 0 once it exceeds 7), then clock. -/
def controllerRead (s : ControllerState) (joy : Buttons) :
    Option (Nat × ControllerState) :=
  (buttonAt s).map fun b =>
    let idx1 := s.readIndex + 1
    let idx2 := if idx1 > 7 then 0 else idx1
    ((if b then 1 else 0), clockPulse { s with readIndex := idx2 } joy)

/-- Controller states reachable from `Controller::new` through the public
operations (bus writes, clock pulses, and successful bus reads). -/
inductive ControllerReachable : ControllerState → Prop
  | init : ControllerReachable controllerNew
  | write (s : ControllerState) (byte : Nat) (joy : Buttons) :
      ControllerReachable s → ControllerReachable (controllerWrite s byte joy)
  | clock (s : ControllerState) (joy : Buttons) :
      ControllerReachable s → ControllerReachable (clockPulse s joy)
  | read (s : ControllerState) (joy : Buttons) (v : Nat)
      (s' : ControllerState) : ControllerReachable s →
      controllerRead s joy = some (v, s') → ControllerReachable s'

/-- The read index of every reachable controller state stays in `0..=7`. -/
theorem controller_index_le (s : ControllerState)
    (h : ControllerReachable s) : s.readIndex ≤ 7 := by
  induction h with
  | init => exact Nat.zero_le 7
  | write s byte joy hs ih =>
    unfold controllerWrite clockPulse
    split <;> simpa using ih
  | clock s joy hs ih =>
    unfold clockPulse
    split <;> simpa using ih
  | read s joy v s' hs hr ih =>
    rcases Option.map_eq_some'.1 hr with ⟨b, hb, hf⟩
    have hs' : s' = clockPulse
        { s with readIndex := if s.readIndex + 1 > 7 then 0 else s.readIndex + 1 }
        joy := by
      have := congrArg Prod.snd hf
      simpa using this.symm
    rw [hs']
    unfold clockPulse
    by_cases hst : s.strobe <;> by_cases hgt : s.readIndex + 1 > 7 <;>
      simp [hst, hgt] <;> omega

/-- The successive bus reads of `$4016`: `readSeq s joy n` is the result
of the `(n+1)`-th read (value and state), threading the state through. -/
def readSeq (s : ControllerState) (joy : Buttons) :
    Nat → Option (Nat × ControllerState)
  | 0 => controllerRead s joy
  | n + 1 => (controllerRead s joy).bind fun p => readSeq p.2 joy n

/-- Claim C10: every reachable controller state has `read_index ≤ 7`, so
`Controller::read` never hits the out-of-bounds panic arm; and with
strobe low and the index at 0, the 9th successive read returns the
A-button bit again — the same value as the 1st read — instead of a
constant. -/
theorem controller_read_safety (s : ControllerState)
    (h : ControllerReachable s) :
    s.readIndex ≤ 7
    ∧ (∀ joy, (controllerRead s joy).isSome)
    ∧ (s.strobe = false → s.readIndex = 0 → ∀ joy,
        (readSeq s joy 8).map Prod.fst
          = some (if s.buttons.a then 1 else 0)
        ∧ (readSeq s joy 0).map Prod.fst
          = some (if s.buttons.a then 1 else 0)) := by
  have h7 := controller_index_le s h
  refine ⟨h7, ?_, ?_⟩
  · intro joy
    unfold controllerRead buttonAt
    interval_cases hidx : s.readIndex <;> simp
  · intro hstrobe hidx joy
    constructor
    · simp [readSeq, controllerRead, buttonAt, clockPulse, hstrobe, hidx,
        Option.bind]
    · simp [readSeq, controllerRead, buttonAt, clockPulse, hstrobe, hidx]

/-- Witness for C10 at the freshly constructed controller. -/
theorem controller_read_safety_witness :
    controllerNew.readIndex ≤ 7
    ∧ (∀ joy, (controllerRead controllerNew joy).isSome)
    ∧ (controllerNew.strobe = false → controllerNew.readIndex = 0 → ∀ joy,
        (readSeq controllerNew joy 8).map Prod.fst
          = some (if controllerNew.buttons.a then 1 else 0)
        ∧ (readSeq controllerNew joy 0).map Prod.fst
          = some (if controllerNew.buttons.a then 1 else 0)) :=
  controller_read_safety controllerNew ControllerReachable.init

end NES
